import Mathlib

/-!
Verification of the CVA_NET VAE training script (`src/cvn/VAE/train.py`).

This file shallowly embeds the pure computational content of the script:
the gradient-accumulation schedule of `Trainer.train_step` /
`Trainer.train_one_epoch`, the shape propagation of `Encoder` / `Decoder`,
the KL-divergence loss `KLDiv.forward`, the reparameterization step of
`Encoder.forward`, the checkpoint-resume logic of `Trainer.load_checkpoint`,
the `Metric` buffer (`load`, `__setitem__`, `state_dict`), the validation
loop of `Trainer.validate`, and the `AvgMeter` accumulator.

Tensors are modelled as lists of real numbers (per-element semantics);
shapes as explicit records over natural numbers; Python dictionaries as
association lists; in-place mutation of an argument is made explicit by
returning the post-call value of that argument.
-/

namespace VAETrain

/-! ## AvgMeter (train.py lines 842-872)

`AvgMeter.__init__(val=0)` sets `total = val`, `count = 0`;
`reset` zeroes both; `__add__(other)` does `total += other; count += 1`;
`avg` returns `total / count` when `count > 0` and `0.0` otherwise. -/

structure AvgMeter where
  total : ℝ
  count : ℕ

/-- Source `AvgMeter(val)` constructor: `self.total = val; self.count = 0`. -/
def AvgMeter.init (val : ℝ) : AvgMeter := ⟨val, 0⟩

/-- Source `AvgMeter.reset`: `self.total = 0.0; self.count = 0`. -/
def AvgMeter.reset (_ : AvgMeter) : AvgMeter := ⟨0, 0⟩

/-- Source `AvgMeter.__add__(other)`: `self.total += other; self.count += 1`. -/
def AvgMeter.add (m : AvgMeter) (other : ℝ) : AvgMeter :=
  ⟨m.total + other, m.count + 1⟩

/-- Source `AvgMeter.avg`: `total / count` if `count > 0` else `0.0`. -/
noncomputable def AvgMeter.avg (m : AvgMeter) : ℝ :=
  if 0 < m.count then m.total / m.count else 0

/-! ## Gradient accumulation (train.py lines 1280-1345)

`Trainer.train_step` ends with:
```
self.gac += len(images)
if self.gac >= self.gas or optimize:
    self.optimizer.step(); self.optimizer.zero_grad(); ...
    self.gac = 0
```
`Trainer.train_one_epoch` iterates `enumerate(loader)` and passes
`optimize := index >= (length - 1)` for the final batch. -/

/-- Effect of one `train_step` call on the gradient-accumulation counter:
given the threshold `gas`, current counter `gac` and the batch length `n`
(`len(images)`), returns the new counter value and whether
`optimizer.step()` fired. -/
def trainStepGac (gas gac n : ℕ) (optimize : Bool) : ℕ × Bool :=
  let gac2 := gac + n
  if gas ≤ gac2 ∨ optimize = true then (0, true) else (gac2, false)

/-- The batch loop of `train_one_epoch`, tracking only the accumulation
counter. `total` is `len(self.train_loader)`, `idx` the 0-based batch
index, `gac` the running counter. Returns the 1-based indices of the
batches after which `optimizer.step()` ran. -/
def runEpochAux (gas total : ℕ) : ℕ → ℕ → List ℕ → List ℕ
  | _, _, [] => []
  | idx, gac, n :: rest =>
    let r := trainStepGac gas gac n (decide (total - 1 ≤ idx))
    if r.2 then (idx + 1) :: runEpochAux gas total (idx + 1) r.1 rest
    else runEpochAux gas total (idx + 1) r.1 rest

/-- One epoch of `train_one_epoch`: `sizes` lists `len(images)` for each
mini-batch in order; the counter starts at 0 (`self.gac` is initialized
to 0 and every epoch ends with a forced step that resets it). Returns
the 1-based batch indices at which the optimizer stepped. -/
def runEpoch (gas : ℕ) (sizes : List ℕ) : List ℕ :=
  runEpochAux gas sizes.length 0 0 sizes

/-! ## KL-divergence loss (train.py lines 996-1016)

`KLDiv.forward(mean, log_variance)`:
```
x = torch.sum(1 + log_variance - mean.pow(2) - log_variance.exp())
kl_divergence = -0.5 * x
output = self.beta * kl_divergence
```
Tensors of matching shape are modelled as two lists of equal length,
reduced elementwise. -/

/-- Source `KLDiv.forward` on elementwise tensors `mean`, `logVar`. -/
noncomputable def kldivForward (beta : ℝ) (mean logVar : List ℝ) : ℝ :=
  let x := (List.zipWith (fun m lv => 1 + lv - m ^ 2 - Real.exp lv) mean logVar).sum
  let kl := -0.5 * x
  beta * kl

/-! ## Reparameterization (train.py lines 345-356)

Tail of `Encoder.forward` after the mean / log-variance split:
```
log_variance = torch.clamp(log_variance, -30, 20)
std = torch.exp(0.5 * log_variance)
eps = torch.randn_like(std)
x = mean + eps * std
out = x * self.mult_factor
```
-/

/-- Source `torch.clamp(v, -30, 20)`. -/
def clampLV (v : ℝ) : ℝ := min (max v (-30)) 20

/-- The sample computation of `Encoder.forward`, elementwise over tensors
`mean`, `logVar` and the drawn noise `eps` (`torch.randn_like(std)`). -/
noncomputable def reparamSample (multFactor : ℝ) (mean logVar eps : List ℝ) : List ℝ :=
  let std := logVar.map (fun lv => Real.exp (0.5 * clampLV lv))
  let x := List.zipWith (fun m es => m + es) mean (List.zipWith (fun e s => e * s) eps std)
  x.map (fun v => v * multFactor)

/-! ## Shape propagation through Encoder / Decoder (train.py lines 285-435)

A tensor shape `[n, c, h, w]`. Each layer is modelled by its effect on
the shape; `none` models a runtime / construction error (channel
mismatch, output size below 1, invalid group count, invalid head count).
-/

structure Shape where
  n : ℕ
  c : ℕ
  h : ℕ
  w : ℕ
deriving DecidableEq, Repr

/-- Source `nn.Conv2d(inCh, outCh, k, s, p)` shape rule:
out = (in + 2p - k) / s + 1 on each spatial dim. Fails when the input
channel count mismatches or when the kernel does not fit
(torch raises in both cases; channel counts must be positive at
construction). -/
def conv2dShape (inCh outCh k s p : ℕ) (x : Shape) : Option Shape :=
  if 0 < inCh ∧ 0 < outCh ∧ 0 < s ∧ x.c = inCh ∧ k ≤ x.h + 2 * p ∧ k ≤ x.w + 2 * p then
    some ⟨x.n, outCh, (x.h + 2 * p - k) / s + 1, (x.w + 2 * p - k) / s + 1⟩
  else none

/-- Source `F.pad(x, (0, 1, 0, 1))`: pad right and bottom by one
(`Encoder.forward` applies this before every stride-2 convolution). -/
def padRB1 (x : Shape) : Shape := ⟨x.n, x.c, x.h + 1, x.w + 1⟩

/-- Source `nn.GroupNorm(g, ch)`: shape-preserving; requires the input channel
count to equal `ch` and `ch` to be divisible by `g` (checked by torch at
construction). -/
def groupNormShape (g ch : ℕ) (x : Shape) : Option Shape :=
  if x.c = ch ∧ 0 < g ∧ ch % g = 0 then some x else none

/-- Source `nn.SiLU()`: shape-preserving. -/
def siluShape (x : Shape) : Option Shape := some x

/-- Source `AttentionBlock(ch, g, heads, ...)` (train.py lines 173-212):
group norm, then self-attention over `[n, h*w, ch]`, reshaped back;
shape-preserving. `SelfAttention` asserts `ch % heads == 0`. -/
def attnBlockShape (g ch heads : ℕ) (x : Shape) : Option Shape :=
  if x.c = ch ∧ 0 < g ∧ ch % g = 0 ∧ 0 < heads ∧ ch % heads = 0 then some x else none

/-- Source `nn.Upsample(scale_factor=2)`: doubles both spatial dims. -/
def upsample2Shape (x : Shape) : Option Shape :=
  some ⟨x.n, x.c, 2 * x.h, 2 * x.w⟩

/-- One module of the `Encoder` / `Decoder` sequential container,
described by its constructor arguments. -/
inductive Stage
  | conv (inCh outCh k s p : ℕ)
  | res (g inCh outCh : ℕ)
  | attn (g ch heads : ℕ)
  | gnorm (g ch : ℕ)
  | silu
  | up2

/-- Source `ResidualBlock(inCh, outCh, g)` (train.py lines 224-273):
norm1 → relu → conv1(3x3, p1) → norm2 → conv2(3x3, p1), plus a skip
(identity or 1x1 convolution); spatial dims preserved, channels become
`outCh`. -/
def residualBlockShape (g inCh outCh : ℕ) (x : Shape) : Option Shape :=
  match groupNormShape g inCh x with
  | none => none
  | some x1 =>
  match conv2dShape inCh outCh 3 1 1 x1 with
  | none => none
  | some x2 =>
  match groupNormShape g outCh x2 with
  | none => none
  | some x3 => conv2dShape outCh outCh 3 1 1 x3

/-- Shape effect of a single module (used directly by `Decoder.forward`,
which applies the module list without padding). -/
def applyStage (x : Shape) : Stage → Option Shape
  | .conv i o k s p => conv2dShape i o k s p x
  | .res g i o => residualBlockShape g i o x
  | .attn g ch heads => attnBlockShape g ch heads x
  | .gnorm g ch => groupNormShape g ch x
  | .silu => siluShape x
  | .up2 => upsample2Shape x

/-- Shape effect of a single module under `Encoder.forward`'s rule:
`if isinstance(module, nn.Conv2d) and module.stride == (2, 2):
x = F.pad(x, (0, 1, 0, 1))` before applying the module. -/
def encApplyStage (x : Shape) : Stage → Option Shape
  | .conv i o k s p => conv2dShape i o k s p (if s = 2 then padRB1 x else x)
  | st => applyStage x st

/-- Apply a module list in order, with the per-module rule `app`. -/
def runStages (app : Shape → Stage → Option Shape) : List Stage → Shape → Option Shape
  | [], x => some x
  | st :: rest, x =>
    match app x st with
    | none => none
    | some y => runStages app rest y

/-- The `Encoder.__init__` module list (train.py lines 294-318). -/
def encoderStages (imgCh zch g heads : ℕ) : List Stage :=
  [.conv imgCh 128 3 1 1,
   .res g 128 128,
   .conv 128 128 3 2 0,
   .res g 128 256,
   .res g 256 256,
   .conv 256 256 3 2 0,
   .res g 256 512,
   .res g 512 512,
   .conv 512 512 3 2 0,
   .res g 512 512,
   .res g 512 512,
   .res g 512 512,
   .attn g 512 heads,
   .res g 512 512,
   .gnorm g 512,
   .silu,
   .conv 512 zch 3 1 1,
   .conv zch zch 1 1 0]

/-- Source `Encoder.forward` shape: run the module list (padding before each
stride-2 convolution), then `torch.chunk(x, 2, dim=1)` splits the
channel dim in half; the reparameterized sample has the shape of
`mean`. An odd channel count yields chunks of unequal size whose
elementwise combination fails, so it is modelled as an error. -/
def encoderForwardShape (imgCh zch g heads : ℕ) (x : Shape) : Option Shape :=
  match runStages encApplyStage (encoderStages imgCh zch g heads) x with
  | none => none
  | some y => if y.c % 2 = 0 then some ⟨y.n, y.c / 2, y.h, y.w⟩ else none

/-- The `Decoder.__init__` module list (train.py lines 382-413). The
residual blocks of the decoder are constructed with the default
`num_groups=32`; only the attention block and the final group norm
receive the configured `g`. -/
def decoderStages (imgCh zch g heads : ℕ) : List Stage :=
  [.conv (zch / 2) 512 3 1 1,
   .res 32 512 512,
   .attn g 512 heads,
   .res 32 512 512,
   .res 32 512 512,
   .res 32 512 512,
   .up2,
   .conv 512 512 3 1 1,
   .res 32 512 512,
   .res 32 512 512,
   .res 32 512 512,
   .up2,
   .conv 512 512 3 1 1,
   .res 32 512 256,
   .res 32 256 256,
   .res 32 256 256,
   .up2,
   .conv 256 256 3 1 1,
   .res 32 256 128,
   .res 32 128 128,
   .res 32 128 128,
   .gnorm g 128,
   .silu,
   .conv 128 imgCh 3 1 1]

/-- Source `Decoder.forward` shape: the initial division by `mult_factor` does
not change the shape; the module list is applied in order. -/
def decoderShape (imgCh zch g heads : ℕ) (x : Shape) : Option Shape :=
  runStages applyStage (decoderStages imgCh zch g heads) x

/-! ## Metric (train.py lines 875-960)

A metric buffer is a `num_channels × num_epochs` numpy array pre-filled
with `np.nan`; `none` models the NaN "unset" sentinel. A Python dict is
modelled as an association list (`StateDict`); `Metric.state_dict()`
returns `self.__dict__` itself, so mutating the returned dict mutates
the instance — functions that mutate a dict argument return its
post-call value explicitly. -/

abbrev Row : Type := List (Option ℝ)

abbrev Buffer : Type := List Row

/-- A value stored in a metric state dict. -/
inductive MVal
  | nat (n : ℕ)
  | strs (l : List String)
  | buf (b : Buffer)

abbrev StateDict : Type := List (String × MVal)

/-- The `Metric` instance: its `__dict__` holds exactly these five
attributes, assigned in this order by `__init__`. -/
structure Metric where
  num_epochs : ℕ
  num_channels : ℕ
  channels : List String
  mse_losses : Buffer
  kl_divergence_losses : Buffer

/-- Source `Metric.new_buffer`: `np.zeros((num_channels, num_epochs))` filled
with `np.nan`. -/
def Metric.new_buffer (numChannels numEpochs : ℕ) : Buffer :=
  List.replicate numChannels (List.replicate numEpochs (none : Option ℝ))

/-- Source `Metric.__init__(num_epochs, num_channels=2)`. -/
def Metric.init (numEpochs : ℕ) (numChannels : ℕ) : Metric :=
  { num_epochs := numEpochs
    num_channels := numChannels
    channels := (List.range numChannels).map (fun c => "ch_" ++ toString c)
    mse_losses := Metric.new_buffer numChannels numEpochs
    kl_divergence_losses := Metric.new_buffer numChannels numEpochs }

/-- Source `Metric.state_dict()`: returns `self.__dict__` (the instance's own
attribute dictionary, not a copy). -/
def Metric.state_dict (m : Metric) : StateDict :=
  [("num_epochs", .nat m.num_epochs),
   ("num_channels", .nat m.num_channels),
   ("channels", .strs m.channels),
   ("mse_losses", .buf m.mse_losses),
   ("kl_divergence_losses", .buf m.kl_divergence_losses)]

/-- Source `metric[i, :E] = values[i, :E]` for one row: the first `E` entries
come from the source row, the rest of the destination row is kept. -/
def copyRow (E : ℕ) (dst src : Row) : Row :=
  src.take E ++ dst.drop E

/-- Source `for i in range(C): metric[i, :E] = values[i, :E]` where the
destination buffer has exactly `C` rows (as built by `new_buffer`). -/
def copyCols (E : ℕ) : Buffer → Buffer → Buffer
  | [], _ => []
  | d :: ds, [] => d :: ds
  | d :: ds, s :: ss => copyRow E d s :: copyCols E ds ss

/-- Source `instance.__dict__[name]` lookup and in-place column copy for one
remaining state-dict entry; `none` models the `KeyError` / `TypeError`
raised for a name that is not a buffer attribute. -/
def applyEntry (E : ℕ) (inst : Metric) : String × MVal → Option Metric
  | (name, .buf values) =>
    if name = "mse_losses" then
      some { inst with mse_losses := copyCols E inst.mse_losses values }
    else if name = "kl_divergence_losses" then
      some { inst with kl_divergence_losses := copyCols E inst.kl_divergence_losses values }
    else none
  | _ => none

/-- Source `del state_dict[k]`: Python dict keys are unique, so removing the
first occurrence models the deletion. -/
def eraseKey (k : String) (sd : StateDict) : StateDict :=
  List.eraseP (fun p => p.1 == k) sd

/-- Source `Metric.load(state_dict, new_num_epochs=None)` (train.py lines
876-910). Returns the loaded instance (`none` on the empty-dict early
return or on a raised error) together with the post-call value of the
`state_dict` argument, which the method mutates by deleting the
`num_epochs`, `num_channels` and `channels` keys. `new_num_epochs` is
`Option ℕ` (`none` = Python `None`); the guard
`if new_num_epochs and new_num_epochs > num_epochs` treats both `None`
and `0` as falsy, which coincides with the `E < E'` test. -/
def Metric.load (sd : StateDict) (newNumEpochs : Option ℕ) : Option Metric × StateDict :=
  if sd.isEmpty then (none, sd)
  else
    match List.lookup "num_epochs" sd with
    | some (.nat numEpochs) =>
      match List.lookup "num_channels" sd with
      | some (.nat numChannels) =>
        let inst0 :=
          match newNumEpochs with
          | some newE =>
            if numEpochs < newE then Metric.init newE numChannels
            else Metric.init numEpochs numChannels
          | none => Metric.init numEpochs numChannels
        match List.lookup "channels" sd with
        | some (.strs chs) =>
          let inst1 := { inst0 with channels := chs }
          let sd2 := eraseKey "channels" (eraseKey "num_channels" (eraseKey "num_epochs" sd))
          (sd2.foldlM (applyEntry numEpochs) inst1, sd2)
        | _ => (none, sd)
      | _ => (none, sd)
    | _ => (none, sd)

/-- The value written by `Metric.__setitem__` for one metric name:
either a channel-name → value dict or a per-channel list. -/
inductive MWrite
  | chans (kvs : List (String × ℝ))
  | vals (vs : List ℝ)

/-- Source `Metric.channel_id(name)`: raises `ValueError` (modelled `none`)
when the name is not in `self.channels`, else its first index. -/
def Metric.channel_id (m : Metric) (name : String) : Option ℕ :=
  if name ∈ m.channels then some (m.channels.indexOf name) else none

/-- Write one scalar at `(chi, epoch)` of the named buffer attribute. -/
def Metric.writeCell (m : Metric) (name : String) (chi epoch : ℕ) (v : ℝ) : Metric :=
  if name = "mse_losses" then
    { m with mse_losses := m.mse_losses.set chi ((m.mse_losses.getD chi []).set epoch (some v)) }
  else
    { m with kl_divergence_losses :=
        m.kl_divergence_losses.set chi ((m.kl_divergence_losses.getD chi []).set epoch (some v)) }

/-- Whether `hasattr(self, name)` holds for a `Metric` instance. -/
def metricAttrs : List String :=
  ["num_epochs", "num_channels", "channels", "mse_losses", "kl_divergence_losses"]

/-- Source `Metric.__setitem__(epoch, metric_values)` (train.py lines 931-952).
An out-of-range epoch logs a warning and returns without touching any
state; an unknown metric name logs a warning and is skipped; a known
non-buffer attribute would fail at the numpy indexing (`none`); a list
of values whose length differs from `num_channels` raises `ValueError`
(`none`); an unknown channel name raises via `channel_id` (`none`). -/
def Metric.setItem (m : Metric) (epoch : ℤ) (mvs : List (String × MWrite)) : Option Metric :=
  if ¬(0 ≤ epoch ∧ epoch < (m.num_epochs : ℤ)) then some m
  else
    mvs.foldlM (fun acc (p : String × MWrite) =>
      if p.1 ∉ metricAttrs then some acc
      else if p.1 ≠ "mse_losses" ∧ p.1 ≠ "kl_divergence_losses" then none
      else
        match p.2 with
        | .chans kvs =>
          kvs.foldlM (fun a (kv : String × ℝ) =>
            match a.channel_id kv.1 with
            | some chi => some (a.writeCell p.1 chi epoch.toNat kv.2)
            | none => none) acc
        | .vals vs =>
          if vs.length ≠ acc.num_channels then none
          else
            some ((List.range acc.num_channels).foldl
              (fun a i => a.writeCell p.1 i epoch.toNat (vs.getD i 0)) acc)) m

/-! ## Trainer checkpoint resume (train.py lines 1232-1278)

The checkpoint payloads that `load_checkpoint` merely transfers
(optimizer and scheduler state dicts) are opaque; they are modelled by
type parameters. The filesystem is a partial map from paths to
checkpoint contents; `os.path.isfile` is membership in that map. -/

/-- The fields of a saved checkpoint that `Trainer.load_checkpoint`
reads. `metric_state_dict` is accessed with `.get`, so an absent key
(Python `None`) is modelled by the empty dict, which `Metric.load`
treats the same way (`if not state_dict`). -/
structure Ckpt (O S : Type) where
  optimizer_state_dict : O
  lr_scheduler_state_dict : S
  epoch : ℕ
  metric_state_dict : StateDict

/-- The `Trainer` attributes that `load_checkpoint` reads or writes. -/
structure TrainerState (O S : Type) where
  optState : O
  schedState : S
  epoch : ℕ
  metric : Option Metric
  num_epochs : ℕ
  resume_ckpt : Option String

/-- Source `Trainer.load_checkpoint` (train.py lines 1261-1278): a falsy
`resume_ckpt` (`None` or the empty string) returns immediately; a
configured path that is not a file logs and returns with no state
change; otherwise the optimizer state, scheduler state, epoch
(`saved + 1`) and metric (`Metric.load(..., self.num_epochs)`) are
restored. -/
def TrainerState.load_checkpoint {O S : Type} (fs : String → Option (Ckpt O S))
    (t : TrainerState O S) : TrainerState O S :=
  match t.resume_ckpt with
  | none => t
  | some path =>
    if path = "" then t
    else
      match fs path with
      | none => t
      | some ck =>
        { t with
          optState := ck.optimizer_state_dict
          schedState := ck.lr_scheduler_state_dict
          epoch := ck.epoch + 1
          metric := (Metric.load ck.metric_state_dict (some t.num_epochs)).1 }

/-! ## Validation loop (train.py lines 1347-1391)

`Trainer.validate` iterates the validation loader; per batch it computes
`reconstructed_image = decoder(encoder(images))`, draws
`random_val = np.random.rand()`, and — if no pair has been captured yet
and `random_val < 0.3` — stores `(targets, reconstructed_image)` into
`(references, predictions)`. After the loop it calls
`self.spg.generate(reconstructed_image, targets)` on the loop variables,
i.e. on the values from the final iteration. -/

/-- State threaded through the loop of `Trainer.validate`:
the captured `(references, predictions)` pair and the argument that the
final `spg.generate(reconstructed, targets)` call would receive
(undefined — `none` — before any iteration ran). -/
structure ValLoop (T : Type) where
  references : Option T
  predictions : Option T
  genArg : Option (T × T)

/-- The batch loop of `Trainer.validate` over batches
`(images, targets)`, with reconstruction function `recon`
(the composite `decoder ∘ encoder` forward pass) and the stream of
`np.random.rand()` draws indexed by iteration. -/
noncomputable def validateLoop {T : Type} (recon : T → T) (rand : ℕ → ℝ) :
    ℕ → ValLoop T → List (T × T) → ValLoop T
  | _, st, [] => st
  | i, st, (images, targets) :: rest =>
    let reconstructed := recon images
    let st2 :=
      if (st.predictions.isNone ∨ st.references.isNone) ∧ rand i < 0.3 then
        { st with references := some targets, predictions := some reconstructed }
      else st
    validateLoop recon rand (i + 1)
      { st2 with genArg := some (reconstructed, targets) } rest

/-- Source `Trainer.validate` restricted to its loop and the final
`spg.generate` argument: both capture slots start as `None`. -/
noncomputable def validateRun {T : Type} (recon : T → T) (rand : ℕ → ℝ)
    (batches : List (T × T)) : ValLoop T :=
  validateLoop recon rand 0 ⟨none, none, none⟩ batches

/-! ## Theorems -/

/-- C9: `AvgMeter.avg` returns `total / count` when `count > 0` and `0.0`
when `count = 0` (never dividing by zero); an `AvgMeter(val)` has
`count = 0`, hence `avg() = 0.0`, while `val` is stored in `total`; a
subsequent `__add__` counts one sample and adds onto the stored `val`. -/
theorem avgmeter_guarded_average :
    (∀ t : ℝ, ∀ c : ℕ, 0 < c → AvgMeter.avg ⟨t, c⟩ = t / c) ∧
    (∀ t : ℝ, AvgMeter.avg ⟨t, 0⟩ = 0) ∧
    (∀ v : ℝ, (AvgMeter.init v).count = 0 ∧ (AvgMeter.init v).total = v ∧
      (AvgMeter.init v).avg = 0) ∧
    (∀ v a : ℝ, ((AvgMeter.init v).add a).total = v + a ∧
      ((AvgMeter.init v).add a).count = 1) := by
  refine ⟨fun t c hc => ?_, fun t => ?_, fun v => ⟨rfl, rfl, ?_⟩, fun v a => ⟨rfl, rfl⟩⟩
  · simp [AvgMeter.avg, hc]
  · simp [AvgMeter.avg]
  · simp [AvgMeter.avg, AvgMeter.init]

lemma runEpochAux_last_fires (gas : ℕ) :
    ∀ (sizes : List ℕ) (idx gac : ℕ), sizes ≠ [] →
      (idx + sizes.length) ∈ runEpochAux gas (idx + sizes.length) idx gac sizes := by
  intro sizes
  induction sizes with
  | nil => intro idx gac h; exact absurd rfl h
  | cons n rest ih =>
    intro idx gac _
    by_cases hr : rest = []
    · subst hr
      simp [runEpochAux, trainStepGac]
    · simp only [List.length_cons, runEpochAux]
      have key := ih (idx + 1) (trainStepGac gas gac n
        (decide (idx + (rest.length + 1) - 1 ≤ idx))).1 hr
      have harith : idx + 1 + rest.length = idx + (rest.length + 1) := by omega
      rw [harith] at key
      by_cases h2 : (trainStepGac gas gac n (decide (idx + (rest.length + 1) - 1 ≤ idx))).2
      · simp only [h2, if_true]
        exact List.mem_cons_of_mem _ key
      · simp only [h2, if_false]
        exact key

/-- C1: with `gas = 4` and an epoch of 10 mini-batches each contributing
`len(images) = 1` to the accumulation counter (the CLI default batch
size), the optimizer steps exactly after batches 4, 8 and — forced — 10;
in general `train_step` leaves the counter at `gac + len` without
stepping while it is below the threshold, steps as soon as
`gac + len ≥ gas` or when forced (`optimize=True`, as
`train_one_epoch` passes on the final batch index), and resets the
counter to zero after every step. -/
theorem gradient_accumulation_schedule :
    runEpoch 4 (List.replicate 10 1) = [4, 8, 10] ∧
    (∀ gas gac n : ℕ, gac + n < gas → trainStepGac gas gac n false = (gac + n, false)) ∧
    (∀ gas gac n : ℕ, ∀ opt : Bool, gas ≤ gac + n ∨ opt = true →
      trainStepGac gas gac n opt = (0, true)) ∧
    (∀ gas : ℕ, ∀ sizes : List ℕ, sizes ≠ [] → sizes.length ∈ runEpoch gas sizes) := by
  refine ⟨by decide, fun gas gac n h => ?_, fun gas gac n opt h => ?_, fun gas sizes h => ?_⟩
  · simp only [trainStepGac]
    rw [if_neg]
    simp only [Bool.false_eq_true, or_false]
    omega
  · simp only [trainStepGac]
    rw [if_pos h]
  · have key := runEpochAux_last_fires gas sizes 0 0 h
    simpa [runEpoch] using key

lemma klTerm_bound (m lv : ℝ) (h1 : -30 ≤ lv) (h2 : lv ≤ 20) :
    |1 + lv - m ^ 2 - Real.exp lv| ≤ m ^ 2 + (31 + Real.exp 20) := by
  have he0 : 0 < Real.exp lv := Real.exp_pos lv
  have he : Real.exp lv ≤ Real.exp 20 := Real.exp_le_exp.mpr h2
  have hm : 0 ≤ m ^ 2 := sq_nonneg m
  rw [abs_le]
  constructor <;> nlinarith [Real.exp_pos (20 : ℝ)]

lemma klSum_bound : ∀ (mean logVar : List ℝ), (∀ v ∈ logVar, -30 ≤ v ∧ v ≤ 20) →
    |(List.zipWith (fun m lv => 1 + lv - m ^ 2 - Real.exp lv) mean logVar).sum| ≤
      (mean.map (fun m => m ^ 2)).sum + (31 + Real.exp 20) * mean.length := by
  intro mean
  induction mean with
  | nil => intro logVar _; simp
  | cons m ms ih =>
    intro logVar hlv
    have hsq : (0 : ℝ) ≤ ((m :: ms).map (fun m => m ^ 2)).sum := by
      refine List.sum_nonneg ?_
      intro x hx
      simp only [List.mem_map] at hx
      obtain ⟨y, _, rfl⟩ := hx
      positivity
    cases logVar with
    | nil =>
      simp only [List.zipWith_nil_right, List.sum_nil, abs_zero]
      have hlen : (0 : ℝ) ≤ (31 + Real.exp 20) * (m :: ms).length := by positivity
      linarith
    | cons l ls =>
      have hterm := klTerm_bound m l (hlv l (by simp)).1 (hlv l (by simp)).2
      have hrest := ih ls (fun v hv => hlv v (by simp [hv]))
      simp only [List.zipWith_cons_cons, List.sum_cons, List.map_cons, List.length_cons]
      have htri := abs_add (1 + l - m ^ 2 - Real.exp l)
        ((List.zipWith (fun m lv => 1 + lv - m ^ 2 - Real.exp lv) ms ls).sum)
      push_cast
      nlinarith

/-- C3: `KLDiv.forward(mean, log_variance)` returns
`beta * (-0.5 * sum(1 + log_variance - mean² - exp(log_variance)))` over
all elements; at `mean = 0`, `log_variance = 0` the result is exactly 0;
and whenever every `log_variance` element lies in `[-30, 20]` the result
is bounded (finite) by an explicit function of the inputs. -/
theorem kldiv_forward_contract :
    (∀ beta : ℝ, ∀ mean logVar : List ℝ,
      kldivForward beta mean logVar =
        beta * (-0.5 *
          (List.zipWith (fun m lv => 1 + lv - m ^ 2 - Real.exp lv) mean logVar).sum)) ∧
    (∀ beta : ℝ, ∀ n : ℕ,
      kldivForward beta (List.replicate n 0) (List.replicate n 0) = 0) ∧
    (∀ beta : ℝ, ∀ mean logVar : List ℝ, (∀ v ∈ logVar, -30 ≤ v ∧ v ≤ 20) →
      |kldivForward beta mean logVar| ≤
        |beta| * (0.5 * ((mean.map (fun m => m ^ 2)).sum +
          (31 + Real.exp 20) * mean.length))) := by
  refine ⟨fun beta mean logVar => rfl, fun beta n => ?_, fun beta mean logVar hlv => ?_⟩
  · simp [kldivForward, List.zipWith_replicate, Real.exp_zero]
  · have hb := klSum_bound mean logVar hlv
    have hhalf : |(-0.5 : ℝ)| = 0.5 := by
      rw [abs_of_nonpos (by norm_num)]
      norm_num
    have habs : |kldivForward beta mean logVar| =
        |beta| * (0.5 *
          |(List.zipWith (fun m lv => 1 + lv - m ^ 2 - Real.exp lv) mean logVar).sum|) := by
      simp only [kldivForward, abs_mul, hhalf]
    rw [habs]
    gcongr

/-- C4: the reparameterization step of `Encoder.forward` with the noise
`eps` drawn as all zeros returns exactly `mean * mult_factor`; the clamp
of the log-variance and the `exp(0.5·log_variance)` factor contribute
nothing when multiplied by zero noise. -/
theorem reparam_zero_noise (multFactor : ℝ) (mean logVar : List ℝ)
    (hlen : logVar.length = mean.length) :
    reparamSample multFactor mean logVar (List.replicate logVar.length 0) =
      mean.map (fun m => m * multFactor) := by
  induction mean generalizing logVar with
  | nil =>
    cases logVar with
    | nil => rfl
    | cons l ls => simp at hlen
  | cons m ms ih =>
    cases logVar with
    | nil => simp at hlen
    | cons l ls =>
      simp only [List.length_cons] at hlen ⊢
      have hrec := ih ls (by omega)
      simp only [reparamSample, List.map_cons, List.replicate_succ,
        List.zipWith_cons_cons, zero_mul, add_zero] at hrec ⊢
      simp only [List.cons.injEq]
      exact ⟨trivial, hrec⟩

/-- C4 witness. -/
theorem reparam_zero_noise_witness :
    reparamSample 2 [1, 3] [5, -40] (List.replicate ([5, -40] : List ℝ).length 0) =
      List.map (fun m => m * 2) [1, 3] :=
  reparam_zero_noise 2 [1, 3] [5, -40] rfl

/-- C7: `Metric.__setitem__` with an epoch index outside `[0, num_epochs)`
does not raise and leaves the instance unchanged (warning only). -/
theorem metric_out_of_range_write_noop (m : Metric) (epoch : ℤ)
    (mvs : List (String × MWrite)) (h : epoch < 0 ∨ (m.num_epochs : ℤ) ≤ epoch) :
    Metric.setItem m epoch mvs = some m := by
  simp only [Metric.setItem]
  rw [if_pos]
  omega

/-- C7 witness: writing at epoch 5 into a 1-epoch metric is a no-op. -/
theorem metric_out_of_range_write_noop_witness :
    Metric.setItem (Metric.init 1 1) 5 [("mse_losses", MWrite.vals [3])] =
      some (Metric.init 1 1) :=
  metric_out_of_range_write_noop (Metric.init 1 1) 5 [("mse_losses", MWrite.vals [3])]
    (by decide)

/-- C5: when a resume checkpoint path is configured (non-empty) and the
file exists, `load_checkpoint` sets the trainer's epoch to the saved
epoch plus one; when the configured file does not exist, the call is a
no-op leaving the trainer state unchanged. -/
theorem resume_epoch_index {O S : Type} (fs : String → Option (Ckpt O S))
    (t : TrainerState O S) (p : String) (hp : t.resume_ckpt = some p) (hne : p ≠ "") :
    (∀ ck : Ckpt O S, fs p = some ck →
      (t.load_checkpoint fs).epoch = ck.epoch + 1) ∧
    (fs p = none → t.load_checkpoint fs = t) := by
  constructor
  · intro ck hck
    simp [TrainerState.load_checkpoint, hp, hne, hck]
  · intro hnone
    simp [TrainerState.load_checkpoint, hp, hne, hnone]

/-- C5 witness: resuming from a checkpoint saved at epoch 7 restarts at
epoch 8; a missing file leaves the trainer untouched. -/
theorem resume_epoch_index_witness :
    (TrainerState.load_checkpoint
        (fun q => if q = "ckpt.pth" then some (⟨0, 0, 7, []⟩ : Ckpt ℕ ℕ) else none)
        ⟨1, 2, 0, none, 5, some "ckpt.pth"⟩).epoch = 7 + 1 ∧
    TrainerState.load_checkpoint (fun _ => none)
        (⟨1, 2, 0, none, 5, some "ckpt.pth"⟩ : TrainerState ℕ ℕ) =
      ⟨1, 2, 0, none, 5, some "ckpt.pth"⟩ := by
  constructor
  · exact (resume_epoch_index
      (fun q => if q = "ckpt.pth" then some (⟨0, 0, 7, []⟩ : Ckpt ℕ ℕ) else none)
      ⟨1, 2, 0, none, 5, some "ckpt.pth"⟩ "ckpt.pth" rfl (by decide)).1 ⟨0, 0, 7, []⟩
      (by simp)
  · exact (resume_epoch_index (fun _ => none)
      (⟨1, 2, 0, none, 5, some "ckpt.pth"⟩ : TrainerState ℕ ℕ)
      "ckpt.pth" rfl (by decide)).2 rfl

lemma validateLoop_genArg {T : Type} (recon : T → T) (rand : ℕ → ℝ) :
    ∀ (batches : List (T × T)) (h : batches ≠ []) (i : ℕ) (st : ValLoop T),
      (validateLoop recon rand i st batches).genArg =
        some (recon (batches.getLast h).1, (batches.getLast h).2) := by
  intro batches
  induction batches with
  | nil => intro h; exact absurd rfl h
  | cons bt rest ih =>
    intro h i st
    obtain ⟨images, targets⟩ := bt
    by_cases hr : rest = []
    · subst hr
      simp [validateLoop]
    · rw [List.getLast_cons hr]
      simp only [validateLoop]
      exact ih hr (i + 1) _

/-- C8: at the end of the validation phase over a non-empty loader,
the pair handed to `spg.generate` is the `(reconstructed, targets)` of
the LAST batch processed, for every stream of random draws and every
initial capture state — in particular it is independent of the pair
captured by the probability-0.3 selection, which is stored but never
rendered. -/
theorem validation_renders_last_batch {T : Type} (recon : T → T) (rand : ℕ → ℝ)
    (batches : List (T × T)) (h : batches ≠ []) :
    (validateRun recon rand batches).genArg =
      some (recon (batches.getLast h).1, (batches.getLast h).2) ∧
    (∀ (st : ValLoop T) (i : ℕ),
      (validateLoop recon rand i st batches).genArg =
        some (recon (batches.getLast h).1, (batches.getLast h).2)) :=
  ⟨validateLoop_genArg recon rand batches h 0 _,
   fun st i => validateLoop_genArg recon rand batches h i st⟩

/-- C8 witness: over two batches, the rendered pair comes from the
second (last) one. -/
theorem validation_renders_last_batch_witness :
    (validateRun Nat.succ (fun _ => (0 : ℝ)) [(1, 2), (3, 4)]).genArg = some (4, 4) :=
  (validation_renders_last_batch Nat.succ (fun _ => (0 : ℝ)) [(1, 2), (3, 4)]
    (by simp)).1

lemma conv_s1_shape (i o n h w : ℕ) (hi : 0 < i) (ho : 0 < o) (hh : 0 < h) (hw : 0 < w) :
    conv2dShape i o 3 1 1 ⟨n, i, h, w⟩ = some ⟨n, o, h, w⟩ := by
  simp only [conv2dShape]
  rw [if_pos ⟨hi, ho, Nat.one_pos, trivial, by omega, by omega⟩]
  simp only [Option.some.injEq, Shape.mk.injEq]
  refine ⟨trivial, trivial, ?_, ?_⟩ <;> omega

lemma conv_1x1_shape (ch n h w : ℕ) (hch : 0 < ch) (hh : 0 < h) (hw : 0 < w) :
    conv2dShape ch ch 1 1 0 ⟨n, ch, h, w⟩ = some ⟨n, ch, h, w⟩ := by
  simp only [conv2dShape]
  rw [if_pos ⟨hch, hch, Nat.one_pos, trivial, by omega, by omega⟩]
  simp only [Option.some.injEq, Shape.mk.injEq]
  refine ⟨trivial, trivial, ?_, ?_⟩ <;> omega

lemma encDown_shape (ch n h w h2 w2 : ℕ) (hch : 0 < ch) (hh : h = 2 * h2)
    (hw : w = 2 * w2) (hh2 : 0 < h2) (hw2 : 0 < w2) :
    conv2dShape ch ch 3 2 0 (padRB1 ⟨n, ch, h, w⟩) = some ⟨n, ch, h2, w2⟩ := by
  subst hh hw
  simp only [padRB1, conv2dShape]
  rw [if_pos ⟨hch, hch, by omega, trivial, by omega, by omega⟩]
  simp only [Option.some.injEq, Shape.mk.injEq]
  refine ⟨trivial, trivial, ?_, ?_⟩ <;> omega

lemma gnorm_shape (g ch n h w : ℕ) (hg : 0 < g) (hd : ch % g = 0) :
    groupNormShape g ch ⟨n, ch, h, w⟩ = some ⟨n, ch, h, w⟩ := by
  simp only [groupNormShape]
  rw [if_pos ⟨trivial, hg, hd⟩]

lemma attn_shape (g ch heads n h w : ℕ) (hg : 0 < g) (hd : ch % g = 0)
    (hh : 0 < heads) (hd2 : ch % heads = 0) :
    attnBlockShape g ch heads ⟨n, ch, h, w⟩ = some ⟨n, ch, h, w⟩ := by
  simp only [attnBlockShape]
  rw [if_pos ⟨trivial, hg, hd, hh, hd2⟩]

lemma res_shape (g i o n h w : ℕ) (hg : 0 < g) (hdi : i % g = 0) (hdo : o % g = 0)
    (hi : 0 < i) (ho : 0 < o) (hh : 0 < h) (hw : 0 < w) :
    residualBlockShape g i o ⟨n, i, h, w⟩ = some ⟨n, o, h, w⟩ := by
  simp only [residualBlockShape, gnorm_shape g i n h w hg hdi,
    conv_s1_shape i o n h w hi ho hh hw, gnorm_shape g o n h w hg hdo,
    conv_s1_shape o o n h w ho ho hh hw]

lemma up2_shape (n c h w h2 w2 : ℕ) (hh : h2 = 2 * h) (hw : w2 = 2 * w) :
    upsample2Shape ⟨n, c, h, w⟩ = some ⟨n, c, h2, w2⟩ := by
  subst hh hw; rfl

/-- C2: for an input `[N, C, H, W]` with `C` the configured channel
count and `H`, `W` positive multiples of 8 (and a valid configuration:
even `zch`, group count dividing 128, head count dividing 512), the
encoder's latent sample has shape `[N, zch/2, H/8, W/8]` — the
asymmetric right/bottom pad keeping each stride-2 convolution an exact
halving — and the decoder applied to that latent shape returns exactly
`[N, C, H, W]`, so `Decoder(Encoder(x))` round-trips the shape. -/
theorem encoder_decoder_shape_roundtrip
    (N imgCh zch g heads H W : ℕ)
    (hic : 0 < imgCh) (hz : 0 < zch) (hz2 : zch % 2 = 0)
    (hg : 0 < g) (hg128 : 128 % g = 0) (hh512 : 512 % heads = 0)
    (hH8 : H % 8 = 0) (hW8 : W % 8 = 0) (hH : 0 < H) (hW : 0 < W) :
    encoderForwardShape imgCh zch g heads ⟨N, imgCh, H, W⟩ =
      some ⟨N, zch / 2, H / 8, W / 8⟩ ∧
    decoderShape imgCh zch g heads ⟨N, zch / 2, H / 8, W / 8⟩ =
      some ⟨N, imgCh, H, W⟩ := by
  obtain ⟨a, rfl⟩ : ∃ a, H = 8 * a := ⟨H / 8, by omega⟩
  obtain ⟨b, rfl⟩ : ∃ b, W = 8 * b := ⟨W / 8, by omega⟩
  have ha : 0 < a := by omega
  have hb : 0 < b := by omega
  have h8a : 8 * a / 8 = a := by omega
  have h8b : 8 * b / 8 = b := by omega
  rw [h8a, h8b]
  have hheads : 0 < heads := by
    rcases Nat.eq_zero_or_pos heads with h0 | h0
    · rw [h0] at hh512; simp at hh512
    · exact h0
  have hgd : g ∣ 128 := Nat.dvd_of_mod_eq_zero hg128
  have hg256 : 256 % g = 0 := Nat.mod_eq_zero_of_dvd (hgd.trans ⟨2, rfl⟩)
  have hg512 : 512 % g = 0 := Nat.mod_eq_zero_of_dvd (hgd.trans ⟨4, rfl⟩)
  have hzh : 0 < zch / 2 := by omega
  have e1 := conv_s1_shape imgCh 128 N (8 * a) (8 * b) hic (by norm_num)
    (by omega) (by omega)
  have e2 := res_shape g 128 128 N (8 * a) (8 * b) hg hg128 hg128 (by norm_num)
    (by norm_num) (by omega) (by omega)
  have e3 := encDown_shape 128 N (8 * a) (8 * b) (4 * a) (4 * b) (by norm_num)
    (by ring) (by ring) (by omega) (by omega)
  have e4 := res_shape g 128 256 N (4 * a) (4 * b) hg hg128 hg256 (by norm_num)
    (by norm_num) (by omega) (by omega)
  have e5 := res_shape g 256 256 N (4 * a) (4 * b) hg hg256 hg256 (by norm_num)
    (by norm_num) (by omega) (by omega)
  have e6 := encDown_shape 256 N (4 * a) (4 * b) (2 * a) (2 * b) (by norm_num)
    (by ring) (by ring) (by omega) (by omega)
  have e7 := res_shape g 256 512 N (2 * a) (2 * b) hg hg256 hg512 (by norm_num)
    (by norm_num) (by omega) (by omega)
  have e8 := res_shape g 512 512 N (2 * a) (2 * b) hg hg512 hg512 (by norm_num)
    (by norm_num) (by omega) (by omega)
  have e9 := encDown_shape 512 N (2 * a) (2 * b) a b (by norm_num)
    rfl rfl ha hb
  have e10 := res_shape g 512 512 N a b hg hg512 hg512 (by norm_num)
    (by norm_num) ha hb
  have e13 := attn_shape g 512 heads N a b hg hg512 hheads hh512
  have e15 := gnorm_shape g 512 N a b hg hg512
  have e17 := conv_s1_shape 512 zch N a b (by norm_num) hz ha hb
  have e18 := conv_1x1_shape zch N a b hz ha hb
  constructor
  · simp [encoderForwardShape, encoderStages, runStages, encApplyStage, applyStage,
      siluShape, e1, e2, e3, e4, e5, e6, e7, e8, e9, e10, e13, e15, e17, e18, hz2]
  · have d1 := conv_s1_shape (zch / 2) 512 N a b hzh (by norm_num) ha hb
    have d2 := res_shape 32 512 512 N a b (by norm_num) (by norm_num) (by norm_num)
      (by norm_num) (by norm_num) ha hb
    have d7 := up2_shape N 512 a b (2 * a) (2 * b) rfl rfl
    have d8 := conv_s1_shape 512 512 N (2 * a) (2 * b) (by norm_num) (by norm_num)
      (by omega) (by omega)
    have d9 := res_shape 32 512 512 N (2 * a) (2 * b) (by norm_num) (by norm_num)
      (by norm_num) (by norm_num) (by norm_num) (by omega) (by omega)
    have d12 := up2_shape N 512 (2 * a) (2 * b) (4 * a) (4 * b) (by ring) (by ring)
    have d13 := conv_s1_shape 512 512 N (4 * a) (4 * b) (by norm_num) (by norm_num)
      (by omega) (by omega)
    have d14 := res_shape 32 512 256 N (4 * a) (4 * b) (by norm_num) (by norm_num)
      (by norm_num) (by norm_num) (by norm_num) (by omega) (by omega)
    have d15 := res_shape 32 256 256 N (4 * a) (4 * b) (by norm_num) (by norm_num)
      (by norm_num) (by norm_num) (by norm_num) (by omega) (by omega)
    have d17 := up2_shape N 256 (4 * a) (4 * b) (8 * a) (8 * b) (by ring) (by ring)
    have d18 := conv_s1_shape 256 256 N (8 * a) (8 * b) (by norm_num) (by norm_num)
      (by omega) (by omega)
    have d19 := res_shape 32 256 128 N (8 * a) (8 * b) (by norm_num) (by norm_num)
      (by norm_num) (by norm_num) (by norm_num) (by omega) (by omega)
    have d20 := res_shape 32 128 128 N (8 * a) (8 * b) (by norm_num) (by norm_num)
      (by norm_num) (by norm_num) (by norm_num) (by omega) (by omega)
    have d22 := gnorm_shape g 128 N (8 * a) (8 * b) hg hg128
    have d24 := conv_s1_shape 128 imgCh N (8 * a) (8 * b) (by norm_num) hic
      (by omega) (by omega)
    simp [decoderShape, decoderStages, runStages, applyStage, siluShape,
      d1, d2, e13, d7, d8, d9, d12, d13, d14, d15, d17, d18, d19, d20, d22, d24]

/-- C2 witness: the configuration of `test_encoder` / `test_decoder`
(3-channel 224×224 input, `zch = 8`, 32 groups, 1 head). -/
theorem encoder_decoder_shape_roundtrip_witness :
    encoderForwardShape 3 8 32 1 ⟨1, 3, 224, 224⟩ = some ⟨1, 4, 28, 28⟩ ∧
    decoderShape 3 8 32 1 ⟨1, 4, 28, 28⟩ = some ⟨1, 3, 224, 224⟩ :=
  encoder_decoder_shape_roundtrip 1 3 8 32 1 224 224 (by norm_num) (by norm_num)
    (by norm_num) (by norm_num) (by norm_num) (by norm_num) (by norm_num)
    (by norm_num) (by norm_num) (by norm_num)

lemma copyRow_full (E cap : ℕ) (src : Row) (hlen : src.length = E) :
    copyRow E (List.replicate cap (none : Option ℝ)) src =
      src ++ List.replicate (cap - E) none := by
  rw [copyRow, List.take_of_length_le (le_of_eq hlen), List.drop_replicate]

lemma copyCols_replicate (E cap : ℕ) :
    ∀ (src : Buffer), (∀ r ∈ src, r.length = E) →
      copyCols E (List.replicate src.length (List.replicate cap (none : Option ℝ))) src =
        src.map (fun r => r ++ List.replicate (cap - E) none) := by
  intro src
  induction src with
  | nil => intro _; rfl
  | cons s ss ih =>
    intro hr
    simp only [List.length_cons, List.replicate_succ, copyCols, List.map_cons]
    rw [copyRow_full E cap s (hr s (by simp)), ih (fun r h => hr r (by simp [h]))]

/-- C6: loading a saved metric state (horizon `E = num_epochs`, channel
count preserved) with a larger target epoch count `E2 > E` yields an
instance with epoch capacity `E2` whose entries at epochs `0..E-1` equal
the saved values for every channel, the appended capacity holding the
unset (NaN) sentinel; with `E2 ≤ E` or no target the capacity stays `E`
and the instance reproduces the saved state exactly. -/
theorem metric_load_extends_buffer (m : Metric) (E2 : ℕ)
    (hm1 : m.mse_losses.length = m.num_channels)
    (hm2 : ∀ r ∈ m.mse_losses, r.length = m.num_epochs)
    (hk1 : m.kl_divergence_losses.length = m.num_channels)
    (hk2 : ∀ r ∈ m.kl_divergence_losses, r.length = m.num_epochs)
    (hE : m.num_epochs < E2) :
    (Metric.load (Metric.state_dict m) (some E2)).1 =
      some { num_epochs := E2
             num_channels := m.num_channels
             channels := m.channels
             mse_losses := m.mse_losses.map
               (fun r => r ++ List.replicate (E2 - m.num_epochs) none)
             kl_divergence_losses := m.kl_divergence_losses.map
               (fun r => r ++ List.replicate (E2 - m.num_epochs) none) } ∧
    (∀ E3 : ℕ, E3 ≤ m.num_epochs →
      (Metric.load (Metric.state_dict m) (some E3)).1 = some m) ∧
    (Metric.load (Metric.state_dict m) none).1 = some m := by
  have hmse := copyCols_replicate m.num_epochs E2 m.mse_losses hm2
  have hkl := copyCols_replicate m.num_epochs E2 m.kl_divergence_losses hk2
  rw [hm1] at hmse
  rw [hk1] at hkl
  have hmse0 := copyCols_replicate m.num_epochs m.num_epochs m.mse_losses hm2
  have hkl0 := copyCols_replicate m.num_epochs m.num_epochs m.kl_divergence_losses hk2
  rw [hm1] at hmse0
  rw [hk1] at hkl0
  simp only [Nat.sub_self, List.replicate_zero, List.append_nil] at hmse0 hkl0
  refine ⟨?_, fun E3 hE3 => ?_, ?_⟩
  · simp [Metric.load, Metric.state_dict, eraseKey, List.lookup, Metric.init,
      Metric.new_buffer, applyEntry, hE, hmse, hkl]
  · have hnot : ¬ (m.num_epochs < E3) := by omega
    simp [Metric.load, Metric.state_dict, eraseKey, List.lookup, Metric.init,
      Metric.new_buffer, applyEntry, hnot, hmse0, hkl0]
  · simp [Metric.load, Metric.state_dict, eraseKey, List.lookup, Metric.init,
      Metric.new_buffer, applyEntry, hmse0, hkl0]

/-- C6 witness: a 1-epoch, 1-channel saved state extended to 2 epochs
keeps the recorded value at epoch 0 and appends one unset slot. -/
theorem metric_load_extends_buffer_witness :
    (Metric.load (Metric.state_dict ⟨1, 1, ["train"], [[some 1]], [[some 2]]⟩)
        (some 2)).1 =
      some ⟨2, 1, ["train"], [[some 1, none]], [[some 2, none]]⟩ := by
  have h := (metric_load_extends_buffer ⟨1, 1, ["train"], [[some 1]], [[some 2]]⟩ 2
    rfl (by simp) rfl (by simp) (by norm_num)).1
  simpa using h

/-- C10: `Metric.load` mutates the state dict passed by the caller:
whenever the dict holds the `num_epochs`, `num_channels` and `channels`
entries, they are deleted from it as a side effect (the second component
below is the post-call value of the argument); since
`Metric.state_dict()` returns the instance's own `__dict__` rather than
a copy, loading from a live metric's state dict leaves that dictionary —
and therefore the source instance's attribute set — holding only the two
buffer entries. -/
theorem metric_load_deletes_keys (sd : StateDict) (newE : Option ℕ)
    (E C : ℕ) (chs : List String)
    (h1 : List.lookup "num_epochs" sd = some (MVal.nat E))
    (h2 : List.lookup "num_channels" sd = some (MVal.nat C))
    (h3 : List.lookup "channels" sd = some (MVal.strs chs)) :
    (Metric.load sd newE).2 =
      eraseKey "channels" (eraseKey "num_channels" (eraseKey "num_epochs" sd)) ∧
    (∀ (m : Metric) (nE : Option ℕ),
      (Metric.load (Metric.state_dict m) nE).2 =
        [("mse_losses", MVal.buf m.mse_losses),
         ("kl_divergence_losses", MVal.buf m.kl_divergence_losses)]) := by
  constructor
  · have hne : sd.isEmpty = false := by
      cases sd with
      | nil => simp [List.lookup] at h1
      | cons hd tl => rfl
    simp [Metric.load, hne, h1, h2, h3]
  · intro m nE
    cases nE with
    | none => simp [Metric.load, Metric.state_dict, eraseKey, List.lookup]
    | some e => simp [Metric.load, Metric.state_dict, eraseKey, List.lookup]

/-- C10 witness: a dict with the three header keys and one extra entry
loses exactly the three header keys. -/
theorem metric_load_deletes_keys_witness :
    (Metric.load [("num_epochs", MVal.nat 1), ("num_channels", MVal.nat 1),
        ("channels", MVal.strs ["a"]), ("extra", MVal.nat 5)] none).2 =
      eraseKey "channels" (eraseKey "num_channels" (eraseKey "num_epochs"
        [("num_epochs", MVal.nat 1), ("num_channels", MVal.nat 1),
         ("channels", MVal.strs ["a"]), ("extra", MVal.nat 5)])) :=
  (metric_load_deletes_keys
    [("num_epochs", MVal.nat 1), ("num_channels", MVal.nat 1),
     ("channels", MVal.strs ["a"]), ("extra", MVal.nat 5)] none 1 1 ["a"]
    rfl rfl rfl).1

end VAETrain
